import Mathlib

/-!
Shallow embedding of Plume's compression-job orchestrator
(`src/store/imageStore.ts`) and settings resolver
(`src/domain/compression/schema.ts`), with theorems checking the
specification's claims against it.

The per-image entity (`src/domain/image/entity.ts`) is not part of the
provided sources; its methods are modelled from the specification (§4.1)
and marked as such.  Asynchrony is modelled by an explicit environment:
each backend invocation's outcome (structured success, structured error,
or a thrown rejection) and each telemetry call's outcome are inputs, and
the sequential loop is a fold over the pending snapshot, mirroring the
`await`-per-image structure of the code.
-/

namespace Plume

/-- Image formats as displayed/compared by the code
(`imageFormat === 'HEIC'` etc. in schema.ts); the spec's enum is
JPEG/PNG/WEBP/HEIC/other. -/
inductive ImageFormatDisplay where
  | JPEG
  | PNG
  | WEBP
  | HEIC
  | OTHER
deriving DecidableEq, Repr, Fintype

/-- Per-image status: `'pending' | 'processing' | 'completed' | 'error'`. -/
inductive ImageStatus where
  | pending
  | processing
  | completed
  | error
deriving DecidableEq, Repr, Fintype

/-- Modelled from the spec: the Image Record of §3/§4.1 (entity.ts is not
among the provided sources).  Presentation-only fields of the TS record
(preview URL, estimatedCompression payload) are elided: no operation or
claim reads them. -/
structure ImageEntity where
  id : String
  name : String
  path : String
  originalSize : Nat
  format : ImageFormatDisplay
  status : ImageStatus
  progress : Int
  compressedSize : Option Nat
  outputPath : Option String
deriving DecidableEq, Repr

namespace ImageEntity

/-- Modelled from the spec: status test used by the store (`img.isPending()`). -/
def isPending (img : ImageEntity) : Bool :=
  img.status = ImageStatus.pending

/-- Modelled from the spec: status test used by the store (`img.isProcessing()`). -/
def isProcessingImg (img : ImageEntity) : Bool :=
  img.status = ImageStatus.processing

/-- Modelled from the spec: status test used by the store (`img.isCompleted()`). -/
def isCompleted (img : ImageEntity) : Bool :=
  img.status = ImageStatus.completed

/-- Modelled from the spec (§4.1): `toProcessing(initialProgress)` moves the
record to `processing` and stores the given progress. -/
def toProcessing (img : ImageEntity) (initialProgress : Int) : ImageEntity :=
  { img with status := ImageStatus.processing, progress := initialProgress }

/-- Modelled from the spec (§4.1): `toCompleted(size, path)` moves the record
to `completed` with the returned compressed size and output path. -/
def toCompleted (img : ImageEntity) (size : Nat) (out : String) : ImageEntity :=
  { img with
      status := ImageStatus.completed
      compressedSize := some size
      outputPath := some out }

/-- Modelled from the spec (§4.1): `toError()` moves the record to `error`. -/
def toError (img : ImageEntity) : ImageEntity :=
  { img with status := ImageStatus.error }

/-- Modelled from the spec (§4.1): `updateProgress(value)` is a no-op unless
the record is `processing`, and otherwise clamps the value to [0,100] and
stores it. -/
def updateProgress (img : ImageEntity) (v : Int) : ImageEntity :=
  if img.status = ImageStatus.processing then
    { img with progress := max 0 (min 100 v) }
  else img

end ImageEntity

/-! ## Settings Resolver (`src/domain/compression/schema.ts`) -/

/-- `OutputFormatSchema = z.enum(['keep', 'webp', 'jpeg', 'png'])`. -/
inductive OutputFormatType where
  | keep
  | webp
  | jpeg
  | png
deriving DecidableEq, Repr, Fintype

/-- `CompressionLevelSchema = z.enum(['light', 'balanced', 'aggressive'])`. -/
inductive CompressionLevelType where
  | light
  | balanced
  | aggressive
deriving DecidableEq, Repr, Fintype

/-- Result of `resolveCompressionParams`: quality, wire format string sent to
Tauri (`'webp' | 'jpeg' | 'png' | 'auto'`), lossy flag. -/
structure ResolvedCompressionParams where
  quality : Nat
  format : String
  lossy : Bool
deriving DecidableEq, Repr

/-- `QUALITY_MAP` from schema.ts. -/
def QUALITY_MAP : CompressionLevelType → Nat
  | CompressionLevelType.light => 100
  | CompressionLevelType.balanced => 80
  | CompressionLevelType.aggressive => 60

/-- `MOZJPEG_QUALITY_MAP` from schema.ts. -/
def MOZJPEG_QUALITY_MAP : CompressionLevelType → Nat
  | CompressionLevelType.light => 92
  | CompressionLevelType.balanced => 80
  | CompressionLevelType.aggressive => 60

/-- `resolveCompressionParams` from schema.ts, line for line: pick the
effective format (keep → jpeg for HEIC sources, else auto), then switch on
it. -/
def resolveCompressionParams (outputFormat : OutputFormatType)
    (level : CompressionLevelType) (imageFormat : ImageFormatDisplay) :
    ResolvedCompressionParams :=
  let isHeic := imageFormat = ImageFormatDisplay.HEIC
  let effectiveFormat : OutputFormatType :=
    if outputFormat = OutputFormatType.keep then
      (if isHeic then OutputFormatType.jpeg else OutputFormatType.keep)
    else outputFormat
  match effectiveFormat with
  | OutputFormatType.webp =>
      let isLossless := level = CompressionLevelType.light
      { quality := QUALITY_MAP level, format := "webp", lossy := !isLossless }
  | OutputFormatType.jpeg =>
      { quality := MOZJPEG_QUALITY_MAP level, format := "jpeg", lossy := true }
  | OutputFormatType.png =>
      { quality := 100, format := "png", lossy := false }
  | OutputFormatType.keep =>
      -- the 'auto' case: keep original format, adapt quality to the source
      if imageFormat = ImageFormatDisplay.WEBP then
        let isLossless := level = CompressionLevelType.light
        { quality := QUALITY_MAP level, format := "auto", lossy := !isLossless }
      else if imageFormat = ImageFormatDisplay.JPEG then
        { quality := MOZJPEG_QUALITY_MAP level, format := "auto", lossy := true }
      else
        { quality := 100, format := "auto", lossy := false }

/-- The §4.2 table, written from the spec's words (for comparison with the
implementation `resolveCompressionParams`): keep+HEIC takes the jpeg rule;
webp rule is 100/80/60 with lossy iff level is not light; jpeg rule is
92/80/60 always lossy; png is 100/lossless regardless of level; auto applies
the webp rule to WEBP sources, the jpeg rule to JPEG sources and 100/lossless
otherwise, with wire format "auto". -/
def resolveCompressionParamsSpec (outputFormat : OutputFormatType)
    (level : CompressionLevelType) (imageFormat : ImageFormatDisplay) :
    ResolvedCompressionParams :=
  let webpRule : String → ResolvedCompressionParams := fun wire =>
    { quality := QUALITY_MAP level, format := wire,
      lossy := decide (level ≠ CompressionLevelType.light) }
  let jpegRule : String → ResolvedCompressionParams := fun wire =>
    { quality := MOZJPEG_QUALITY_MAP level, format := wire, lossy := true }
  match outputFormat with
  | OutputFormatType.png => { quality := 100, format := "png", lossy := false }
  | OutputFormatType.webp => webpRule "webp"
  | OutputFormatType.jpeg => jpegRule "jpeg"
  | OutputFormatType.keep =>
      if imageFormat = ImageFormatDisplay.HEIC then jpegRule "jpeg"
      else if imageFormat = ImageFormatDisplay.WEBP then webpRule "auto"
      else if imageFormat = ImageFormatDisplay.JPEG then jpegRule "auto"
      else { quality := 100, format := "auto", lossy := false }

/-! ## Store state (`src/store/imageStore.ts`) -/

/-- `CompressionState = 'idle' | 'processing' | 'completed' | 'error'`. -/
inductive CompressionState where
  | idle
  | processing
  | completed
  | error
deriving DecidableEq, Repr

/-- `CompressionSettings { quality: number; keepOriginalFormat: boolean }`. -/
structure CompressionSettings where
  quality : Nat
  keepOriginalFormat : Bool
deriving DecidableEq, Repr

/-- The store's mutable state: `images`, `compressionState`, `isProcessing`,
`compressionSettings`, `progressState` (the record keyed by image id,
modelled as an association list). -/
structure StoreState where
  images : List ImageEntity
  compressionState : CompressionState
  isProcessing : Bool
  compressionSettings : CompressionSettings
  progressState : List (String × Int)
deriving DecidableEq, Repr

/-- JS object-spread update `{...progressState, [imageId]: {progress}}`:
the entry for `imageId` is overwritten, other entries kept. -/
def setProgressEntry (ps : List (String × Int)) (imageId : String)
    (progress : Int) : List (String × Int) :=
  ps.filter (fun e => e.1 ≠ imageId) ++ [(imageId, progress)]

/-- `updateImageProgress(imageId, progress)` (imageStore.ts:435-443): maps
`img.updateProgress(progress)` over the image whose id matches, and
overwrites the `progressState` entry for that id. -/
def updateImageProgress (imageId : String) (progress : Int)
    (s : StoreState) : StoreState :=
  { s with
      images := s.images.map (fun img =>
        if img.id = imageId then img.updateProgress progress else img)
      progressState := setProgressEntry s.progressState imageId progress }

/-- `removeImage(imageId)` (imageStore.ts:187-191): filters the image out of
the collection. -/
def removeImage (imageId : String) (s : StoreState) : StoreState :=
  { s with images := s.images.filter (fun img => img.id ≠ imageId) }

/-- The file-name computation of `addImages`
(`filePath.split('/').pop() || filePath.split('\\\\').pop() || 'unknown'`);
`pop()` of a JS `split` is the last component, and `||` falls through on the
empty string. -/
def jsFileName (filePath : String) : String :=
  let bySlash := (filePath.splitOn "/").getLastD ""
  if bySlash ≠ "" then bySlash
  else
    let byBackslash := (filePath.splitOn "\\\\").getLastD ""
    if byBackslash ≠ "" then byBackslash else "unknown"

/-- `addImages(filePaths)` (imageStore.ts:132-185).  `fileInfo` models the
`get_file_information` command: `none` is a rejected invocation, in which
case the catch block leaves `fileSize = 0`.  `genId` models the
time-and-randomness based `tempId` generation (by position in the batch),
and `detectFormat` models `detectImageFormat` (src/domain/constants.ts is
not among the provided sources).  Paths already present in the collection
are filtered out against `existingPaths`; if none remain the function
returns early without touching the state. -/
def addImages (fileInfo : String → Option Nat) (genId : Nat → String)
    (detectFormat : String → ImageFormatDisplay) (filePaths : List String)
    (s : StoreState) : StoreState :=
  let existingPaths := s.images.map (fun img => img.path)
  let uniqueFilePaths := filePaths.filter (fun p => ¬ existingPaths.contains p)
  if uniqueFilePaths.isEmpty then s
  else
    let newImages := uniqueFilePaths.enum.map (fun ip =>
      { id := genId ip.1
        name := jsFileName ip.2
        path := ip.2
        originalSize := (fileInfo ip.2).getD 0
        format := detectFormat (jsFileName ip.2)
        status := ImageStatus.pending
        progress := 0
        compressedSize := none
        outputPath := none : ImageEntity })
    { s with images := s.images ++ newImages }

/-! ## Backend Event Bridge (`initializeProgressListener`, imageStore.ts:446-492) -/

/-- Event stages of `CompressionProgressEvent`. -/
inductive Stage where
  | loading
  | compressing
  | saving
  | complete
  | error
deriving DecidableEq, Repr

/-- A `compression-progress` event payload: image id and name, stage,
fractional progress (0.0 to 1.0, modelled as a rational), optional ETA. -/
structure CompressionProgressEvent where
  image_id : String
  image_name : String
  stage : Stage
  progress : ℚ
  estimated_time_remaining : Option ℚ
deriving DecidableEq, Repr

/-- JS `Math.round` on a non-negative number: floor of the value plus one
half. -/
def jsRound (q : ℚ) : Int := ⌊q + 1 / 2⌋

/-- Effect of one `compression-progress` event on a single image record:
the composition of the two collection maps the handler performs (the
`updateImageProgress` map, then — on stage Error only — the `toError`
map). -/
def stepImage (ev : CompressionProgressEvent) (img : ImageEntity) :
    ImageEntity :=
  let progressPercent := jsRound (ev.progress * 100)
  let i1 := if img.id = ev.image_id then img.updateProgress progressPercent
            else img
  if ev.stage = Stage.error ∧ img.id = ev.image_id then i1.toError else i1

/-- The event handler installed by `initializeProgressListener`
(imageStore.ts:460-484): converts the fractional progress to a rounded
percent, calls `updateImageProgress`, and on stage Error additionally maps
`toError` over the image with the event's id. -/
def handleProgressEvent (ev : CompressionProgressEvent) (s : StoreState) :
    StoreState :=
  let progressPercent := jsRound (ev.progress * 100)
  let s1 := updateImageProgress ev.image_id progressPercent s
  if ev.stage = Stage.error then
    { s1 with
        images := s1.images.map (fun img =>
          if img.id = ev.image_id then img.toError else img) }
  else s1

/-! ## Orchestrator (`startCompression`, imageStore.ts:212-361)

The backend and telemetry are external: their outcomes are supplied per
image by an environment.  The `await`-per-image loop becomes a fold over
the snapshot; every call the loop issues is recorded in an event trace. -/

/-- Outcome of one `invoke('compress_image', ...)`: a structured success
(`success && result`), a structured failure (`success` false or no result,
with the `error` text), or the invocation itself rejecting/throwing. -/
inductive BackendOutcome where
  | ok (compressedSize : Nat) (outputPath : String)
  | err (msg : String)
  | thrown (msg : String)
deriving DecidableEq, Repr

/-- Environment for one image's processing: the backend outcome, whether
`record_compression_result_with_time` rejects, whether the fallback
`record_compression_result` rejects, and whether an unexpected exception
escapes the per-image try/catch altogether (e.g. the catch handler itself
throwing), aborting the loop. -/
structure ImageEnv where
  backend : BackendOutcome
  primaryTelemetryFails : Bool
  fallbackTelemetryFails : Bool
  escapes : Bool
deriving DecidableEq, Repr

/-- Observable calls issued by the orchestrator loop, in order. -/
inductive Event where
  | toProc (id : String) (initialProgress : Int)
  | progressStart (id : String)
  | backendCall (id : String) (path : String) (quality : Nat) (format : String)
  | progressComplete (id : String)
  | completedEv (id : String) (size : Nat) (out : String)
  | progressError (id : String)
  | erroredEv (id : String)
  | telemetryTimeEv (id : String)
  | telemetryFallbackEv (id : String)
deriving DecidableEq, Repr

/-- State effect of one iteration of the `for (const image of pendingImages)`
body: the `toProcessing(0)` set, then — unless an unexpected exception
escapes — the `toCompleted`/`toError` set according to the backend
outcome.  Telemetry outcomes touch no state. -/
def imageResultState (ienv : ImageEnv) (image : ImageEntity)
    (s : StoreState) : StoreState :=
  let s1 := { s with
    images := s.images.map (fun img =>
      if img.id = image.id then img.toProcessing 0 else img) }
  if ienv.escapes then s1
  else
    match ienv.backend with
    | BackendOutcome.ok size out =>
        { s1 with images := s1.images.map (fun img =>
            if img.id = image.id then img.toCompleted size out else img) }
    | BackendOutcome.err _ =>
        { s1 with images := s1.images.map (fun img =>
            if img.id = image.id then img.toError else img) }
    | BackendOutcome.thrown _ =>
        { s1 with images := s1.images.map (fun img =>
            if img.id = image.id then img.toError else img) }

/-- Trace of one iteration of the loop body, mirroring imageStore.ts:241-355
in call order: the pending→processing set, `startSmartProgress`, the
`compress_image` invocation with `compressionSettings.quality` and
`keepOriginalFormat ? 'auto' : 'webp'`; on success
`completeImageProgress`, the completed set, `record_compression_result_with_time`
and — only if that rejects — the single fallback `record_compression_result`;
on failure `errorImageProgress` and the error set. -/
def imageEvents (ienv : ImageEnv) (settings : CompressionSettings)
    (image : ImageEntity) : List Event :=
  if ienv.escapes then [Event.toProc image.id 0]
  else
    let callFormat := if settings.keepOriginalFormat then "auto" else "webp"
    [Event.toProc image.id 0, Event.progressStart image.id,
     Event.backendCall image.id image.path settings.quality callFormat] ++
    match ienv.backend with
    | BackendOutcome.ok size out =>
        [Event.progressComplete image.id, Event.completedEv image.id size out,
         Event.telemetryTimeEv image.id] ++
        (if ienv.primaryTelemetryFails then [Event.telemetryFallbackEv image.id]
         else [])
    | BackendOutcome.err _ =>
        [Event.progressError image.id, Event.erroredEv image.id]
    | BackendOutcome.thrown _ =>
        [Event.progressError image.id, Event.erroredEv image.id]

/-- One iteration of the loop body: resulting state, trace, and whether an
unexpected exception escaped (aborting the loop). -/
def processImage (ienv : ImageEnv) (settings : CompressionSettings)
    (image : ImageEntity) (s : StoreState) :
    StoreState × List Event × Bool :=
  (imageResultState ienv image s, imageEvents ienv settings image,
   ienv.escapes)

/-- The `for (const image of pendingImages)` loop: strictly sequential, one
image fully resolved before the next begins; an escaping exception aborts
the remaining iterations (the surrounding try/finally handles it). -/
def runLoop (env : String → ImageEnv) (settings : CompressionSettings) :
    List ImageEntity → StoreState → StoreState × List Event × Bool
  | [], s => (s, [], false)
  | image :: rest, s =>
      let r := processImage (env image.id) settings image s
      if r.2.2 then (r.1, r.2.1, true)
      else
        let r' := runLoop env settings rest r.1
        (r'.1, r.2.1 ++ r'.2.1, r'.2.2)

/-- `startCompression` (imageStore.ts:212-361): reads `images`,
`isProcessing` and `compressionSettings` once from the store; returns
immediately if a run is in progress; snapshots the pending images and
returns if there are none; sets the guard and `compressionState:
'processing'`; runs the loop; on normal exit sets `compressionState:
'completed'`; the `finally` clears `isProcessing` however the loop exits. -/
def startCompression (env : String → ImageEnv) (s : StoreState) :
    StoreState × List Event :=
  if s.isProcessing then (s, [])
  else
    let pendingImages := s.images.filter ImageEntity.isPending
    if pendingImages.isEmpty then (s, [])
    else
      let settings := s.compressionSettings
      let s1 := { s with
        isProcessing := true
        compressionState := CompressionState.processing }
      let r := runLoop env settings pendingImages s1
      let s2 := if r.2.2 then r.1
                else { r.1 with compressionState := CompressionState.completed }
      ({ s2 with isProcessing := false }, r.2.1)

/-- The ids of the pending→processing transitions in a trace, in order. -/
def toProcIds (tr : List Event) : List String :=
  tr.filterMap (fun e =>
    match e with
    | Event.toProc id _ => some id
    | _ => none)

/-- The backend `compress_image` calls in a trace, in order, with their
(id, path, quality, format) parameters. -/
def backendCalls (tr : List Event) : List (String × String × Nat × String) :=
  tr.filterMap (fun e =>
    match e with
    | Event.backendCall id path quality format => some (id, path, quality, format)
    | _ => none)

/-! ## Listener bookkeeping of `initializeProgressListener`
(imageStore.ts:446-492) -/

/-- The subscription bookkeeping of `initializeProgressListener` over the set
of live `compression-progress` listeners: `unlisten` is a local variable of
the function, created afresh (undefined) on every invocation, so the
"clean up the old listener" branch tests that fresh local — never a
listener from a previous invocation — and a new listener is then
registered. -/
def initializeProgressListener (activeListeners : List Nat)
    (newListener : Nat) : List Nat :=
  let unlisten : Option Nat := none
  let cleaned :=
    match unlisten with
    | some prev => activeListeners.filter (fun l => l ≠ prev)
    | none => activeListeners
  cleaned ++ [newListener]

/-! ## Sample inputs used by witnesses and counterexamples -/

/-- A minimal image record in a given status. -/
def sampleImage (i p : String) (st : ImageStatus) : ImageEntity :=
  { id := i, name := p, path := p, originalSize := 100
    format := ImageFormatDisplay.JPEG, status := st, progress := 0
    compressedSize := none, outputPath := none }

/-- The store's initial state (imageStore.ts:86-94). -/
def initialStoreState : StoreState :=
  { images := []
    compressionState := CompressionState.idle
    isProcessing := false
    compressionSettings := { quality := 80, keepOriginalFormat := false }
    progressState := [] }

/-- An environment in which every backend call succeeds and telemetry works. -/
def sampleEnvOk : String → ImageEnv := fun _ =>
  { backend := BackendOutcome.ok 50 "out"
    primaryTelemetryFails := false
    fallbackTelemetryFails := false
    escapes := false }

/-! ## Helper lemmas -/

theorem updateProgress_id (img : ImageEntity) (v : Int) :
    (img.updateProgress v).id = img.id := by
  unfold ImageEntity.updateProgress
  split <;> rfl

theorem toError_id (img : ImageEntity) : img.toError.id = img.id := rfl

theorem toError_progress (img : ImageEntity) :
    img.toError.progress = img.progress := rfl

theorem map_if_id_eq_self {l : List ImageEntity} {i : String}
    (f : ImageEntity → ImageEntity) (h : ∀ img ∈ l, img.id ≠ i) :
    l.map (fun img => if img.id = i then f img else img) = l := by
  induction l with
  | nil => rfl
  | cons a t ih =>
      have ha : a.id ≠ i := h a (by simp)
      simp only [List.map_cons, if_neg ha]
      rw [ih (fun img hm => h img (List.mem_cons_of_mem _ hm))]

theorem mem_removeImage_ne (s : StoreState) (i : String) :
    ∀ img ∈ (removeImage i s).images, img.id ≠ i := by
  intro img hm
  unfold removeImage at hm
  simp only [List.mem_filter, decide_eq_true_eq] at hm
  exact hm.2

theorem imageEvents_toProcIds (ienv : ImageEnv)
    (settings : CompressionSettings) (image : ImageEntity) :
    toProcIds (imageEvents ienv settings image) = [image.id] := by
  unfold imageEvents toProcIds
  rcases ienv with ⟨backend, pf, ff, esc⟩
  cases esc <;> cases backend <;> cases pf <;> simp

theorem runLoop_events_of_no_escape (env : String → ImageEnv)
    (settings : CompressionSettings) :
    ∀ (l : List ImageEntity) (s : StoreState),
      (∀ img ∈ l, (env img.id).escapes = false) →
      (runLoop env settings l s).2 =
        (l.flatMap (fun img => imageEvents (env img.id) settings img), false)
  | [], s, _ => by simp [runLoop]
  | image :: rest, s, h => by
      have h0 : (env image.id).escapes = false := h image (by simp)
      have ih := runLoop_events_of_no_escape env settings rest
        (processImage (env image.id) settings image s).1
        (fun img hm => h img (List.mem_cons_of_mem _ hm))
      have h1 := congrArg Prod.fst ih
      have h2 := congrArg Prod.snd ih
      simp only [processImage] at h1 h2
      simp [runLoop, processImage, h0, h1, h2]

theorem toProcIds_append (a b : List Event) :
    toProcIds (a ++ b) = toProcIds a ++ toProcIds b := by
  unfold toProcIds
  exact List.filterMap_append a b _

theorem toProcIds_bind (env : String → ImageEnv)
    (settings : CompressionSettings) :
    ∀ l : List ImageEntity,
      toProcIds (l.flatMap (fun img => imageEvents (env img.id) settings img)) =
        l.map ImageEntity.id
  | [] => by simp [toProcIds]
  | image :: rest => by
      rw [List.flatMap_cons, toProcIds_append, imageEvents_toProcIds,
        toProcIds_bind env settings rest, List.map_cons]
      rfl

theorem mem_toProcIds {tr : List Event} {i : String} {p : Int}
    (h : Event.toProc i p ∈ tr) : i ∈ toProcIds tr := by
  unfold toProcIds
  exact List.mem_filterMap.mpr ⟨Event.toProc i p, h, rfl⟩

/-- Trace of a full run with no escaping exception: the per-image blocks of
the pending snapshot, concatenated in snapshot order. -/
theorem startCompression_trace (env : String → ImageEnv) (s : StoreState)
    (h : s.isProcessing = false)
    (hesc : ∀ img ∈ s.images.filter ImageEntity.isPending,
      (env img.id).escapes = false) :
    (startCompression env s).2 =
      (s.images.filter ImageEntity.isPending).flatMap
        (fun img => imageEvents (env img.id) s.compressionSettings img) := by
  unfold startCompression
  rw [h]
  simp only [Bool.false_eq_true, if_false]
  by_cases he : (s.images.filter ImageEntity.isPending).isEmpty
  · have hnil : s.images.filter ImageEntity.isPending = [] :=
      List.isEmpty_iff.mp he
    simp [he, hnil]
  · have := runLoop_events_of_no_escape env s.compressionSettings
      (s.images.filter ImageEntity.isPending)
      { s with isProcessing := true
               compressionState := CompressionState.processing } hesc
    have h1 := congrArg Prod.fst this
    simp only at h1
    simp [he, h1]

theorem startCompression_toProcIds (env : String → ImageEnv) (s : StoreState)
    (h : s.isProcessing = false)
    (hesc : ∀ img ∈ s.images.filter ImageEntity.isPending,
      (env img.id).escapes = false) :
    toProcIds (startCompression env s).2 =
      (s.images.filter ImageEntity.isPending).map ImageEntity.id := by
  rw [startCompression_trace env s h hesc, toProcIds_bind]

theorem backendCalls_append (a b : List Event) :
    backendCalls (a ++ b) = backendCalls a ++ backendCalls b := by
  unfold backendCalls
  exact List.filterMap_append a b _

theorem imageEvents_backendCalls (ienv : ImageEnv)
    (settings : CompressionSettings) (image : ImageEntity)
    (h : ienv.escapes = false) :
    backendCalls (imageEvents ienv settings image) =
      [(image.id, image.path, settings.quality,
        if settings.keepOriginalFormat then "auto" else "webp")] := by
  unfold imageEvents backendCalls
  rcases ienv with ⟨backend, pf, ff, esc⟩
  simp only at h
  subst h
  cases backend <;> cases pf <;> simp

theorem backendCalls_flatMap_pending (env : String → ImageEnv)
    (settings : CompressionSettings) :
    ∀ l : List ImageEntity,
      (∀ img ∈ l, (env img.id).escapes = false) →
      backendCalls (l.flatMap (fun img => imageEvents (env img.id) settings img)) =
        l.map (fun img =>
          (img.id, img.path, settings.quality,
           if settings.keepOriginalFormat then "auto" else "webp"))
  | [], _ => by simp [backendCalls]
  | image :: rest, h => by
      rw [List.flatMap_cons, backendCalls_append,
        imageEvents_backendCalls (env image.id) settings image (h image (by simp)),
        backendCalls_flatMap_pending env settings rest
          (fun img hm => h img (List.mem_cons_of_mem _ hm)),
        List.map_cons]
      rfl

/-! ## Claim theorems -/

/-- C5: `resolveCompressionParams` realises exactly the §4.2 table: keep+HEIC
takes the jpeg branch (so keep/balanced/HEIC gives quality 80, format
"jpeg", lossy); effective webp gives 100/80/60 with lossy iff the level is
not light; effective jpeg gives 92/80/60 always lossy; png output gives
quality 100 lossless for every level and source; effective auto (keep,
non-HEIC) applies the webp rule to WEBP sources, the jpeg rule to JPEG
sources, and quality 100 lossless otherwise, with wire format "auto". -/
theorem resolveCompressionParams_matches_spec_table :
    ∀ (outputFormat : OutputFormatType) (level : CompressionLevelType)
      (imageFormat : ImageFormatDisplay),
      resolveCompressionParams outputFormat level imageFormat =
        resolveCompressionParamsSpec outputFormat level imageFormat := by
  decide

/-- C1: a run that passes the running guard processes exactly the snapshot of
images pending at invocation time: the trace is the concatenation, in
snapshot order, of the per-image blocks (each beginning with that image's
pending→processing transition carrying progress 0 and containing its awaited
backend call and resolution before the next block starts); the
pending→processing transitions are exactly the snapshot's ids in order; and
no image outside the snapshot (in particular none added after it) ever
transitions. -/
theorem startCompression_snapshot_order (env : String → ImageEnv)
    (s : StoreState) (h : s.isProcessing = false)
    (hesc : ∀ img ∈ s.images.filter ImageEntity.isPending,
      (env img.id).escapes = false) :
    (startCompression env s).2 =
      (s.images.filter ImageEntity.isPending).flatMap
        (fun img => imageEvents (env img.id) s.compressionSettings img)
    ∧ toProcIds (startCompression env s).2 =
        (s.images.filter ImageEntity.isPending).map ImageEntity.id
    ∧ ∀ (i : String) (p : Int),
        Event.toProc i p ∈ (startCompression env s).2 →
        i ∈ (s.images.filter ImageEntity.isPending).map ImageEntity.id := by
  refine ⟨startCompression_trace env s h hesc,
    startCompression_toProcIds env s h hesc, ?_⟩
  intro i p hm
  have hi := mem_toProcIds hm
  rwa [startCompression_toProcIds env s h hesc] at hi

/-- A store with two pending images around a completed one. -/
def c1State : StoreState :=
  { initialStoreState with
      images := [sampleImage "a" "pa" ImageStatus.pending,
                 sampleImage "b" "pb" ImageStatus.completed,
                 sampleImage "c" "pc" ImageStatus.pending] }

theorem startCompression_snapshot_order_witness :
    c1State.isProcessing = false ∧
    (∀ img ∈ c1State.images.filter ImageEntity.isPending,
      (sampleEnvOk img.id).escapes = false) ∧
    toProcIds (startCompression sampleEnvOk c1State).2 = ["a", "c"] := by
  have h := startCompression_snapshot_order sampleEnvOk c1State rfl
    (fun img _ => rfl)
  exact ⟨rfl, fun img _ => rfl, by rw [h.2.1]; rfl⟩

/-- C2: invoking `startCompression` while `isProcessing` is set returns
before any `set`: the store state is untouched and no call is issued. -/
theorem startCompression_busy_noop (env : String → ImageEnv)
    (s : StoreState) (h : s.isProcessing = true) :
    startCompression env s = (s, []) := by
  simp [startCompression, h]

/-- A store mid-run: guard set, one pending image waiting. -/
def busyState : StoreState :=
  { initialStoreState with
      images := [sampleImage "a" "pa" ImageStatus.pending]
      isProcessing := true }

theorem startCompression_busy_noop_witness :
    busyState.isProcessing = true ∧
    startCompression sampleEnvOk busyState = (busyState, []) :=
  ⟨rfl, startCompression_busy_noop sampleEnvOk busyState rfl⟩

/-- C3: however the snapshot loop exits — normal completion, backend
failures handled per image, or an unexpected exception escaping the
per-image handling — the `finally` clears `isProcessing`; and as long as no
exception escapes the per-image try/catch, a backend failure for one image
does not abort the loop: the pending→processing transitions still cover the
whole snapshot. -/
theorem startCompression_guard_cleared (env : String → ImageEnv)
    (s : StoreState) (h : s.isProcessing = false) :
    (startCompression env s).1.isProcessing = false ∧
    ((∀ img ∈ s.images.filter ImageEntity.isPending,
        (env img.id).escapes = false) →
      toProcIds (startCompression env s).2 =
        (s.images.filter ImageEntity.isPending).map ImageEntity.id) := by
  refine ⟨?_, startCompression_toProcIds env s h⟩
  unfold startCompression
  rw [h]
  simp only [Bool.false_eq_true, if_false]
  by_cases he : (s.images.filter ImageEntity.isPending).isEmpty
  · simp [he, h]
  · simp [he]

/-- An environment whose backend fails structurally on image "a", succeeds
elsewhere, and never escapes. -/
def envFailA : String → ImageEnv := fun i =>
  if i = "a" then
    { backend := BackendOutcome.err "boom"
      primaryTelemetryFails := false
      fallbackTelemetryFails := false
      escapes := false }
  else sampleEnvOk i

theorem startCompression_guard_cleared_witness :
    c1State.isProcessing = false ∧
    (startCompression envFailA c1State).1.isProcessing = false ∧
    toProcIds (startCompression envFailA c1State).2 = ["a", "c"] := by
  have h := startCompression_guard_cleared envFailA c1State rfl
  refine ⟨rfl, h.1, ?_⟩
  rw [h.2 ?_]
  · rfl
  · intro img _
    by_cases hc : img.id = "a" <;> simp [envFailA, sampleEnvOk, hc]

/-- A one-pending-image store whose quality setting (95) matches no preset. -/
def c4State : StoreState :=
  { initialStoreState with
      images := [sampleImage "a" "p" ImageStatus.pending]
      compressionSettings := { quality := 95, keepOriginalFormat := false } }

/-- C4 counterexample: the run on `c4State` passes (quality 95, format
"webp") to the backend, and no invocation of `resolveCompressionParams`
— for any output format, level and source format — produces quality 95
with wire format "webp": the parameters the orchestrator sends are not
`resolveCompressionParams` outputs at all. -/
theorem startCompression_params_not_from_resolver :
    backendCalls (startCompression sampleEnvOk c4State).2 =
      [("a", "p", 95, "webp")] ∧
    ∀ (outputFormat : OutputFormatType) (level : CompressionLevelType)
      (fmt : ImageFormatDisplay),
      ¬((resolveCompressionParams outputFormat level fmt).quality = 95 ∧
        (resolveCompressionParams outputFormat level fmt).format = "webp") :=
  ⟨rfl, by decide⟩

/-- C4 amended: the parameters of every backend call of a run are
`compressionSettings.quality` and `keepOriginalFormat ? 'auto' : 'webp'`,
taken from the single destructuring of the store at `startCompression`
entry (settings are snapshotted once per run, not re-read per image, and
`resolveCompressionParams` is not consulted). -/
theorem startCompression_params_from_entry_settings (env : String → ImageEnv)
    (s : StoreState) (h : s.isProcessing = false)
    (hesc : ∀ img ∈ s.images.filter ImageEntity.isPending,
      (env img.id).escapes = false) :
    backendCalls (startCompression env s).2 =
      (s.images.filter ImageEntity.isPending).map (fun img =>
        (img.id, img.path, s.compressionSettings.quality,
         if s.compressionSettings.keepOriginalFormat then "auto" else "webp")) := by
  rw [startCompression_trace env s h hesc]
  exact backendCalls_flatMap_pending env s.compressionSettings _ hesc

theorem startCompression_params_from_entry_settings_witness :
    c4State.isProcessing = false ∧
    backendCalls (startCompression sampleEnvOk c4State).2 =
      [("a", "p", 95, "webp")] := by
  have h := startCompression_params_from_entry_settings sampleEnvOk c4State
    rfl (fun img _ => rfl)
  exact ⟨rfl, by rw [h]; rfl⟩

/-- C6: when an image's backend call succeeds, the fallback telemetry call
`record_compression_result` is issued exactly once if the primary
`record_compression_result_with_time` rejects (and never otherwise), and —
whatever the two telemetry outcomes — the image ends the iteration
`completed`, with the returned compressed size and output path intact. -/
theorem telemetry_fallback_once_status_completed (ienv : ImageEnv)
    (settings : CompressionSettings) (image : ImageEntity) (s : StoreState)
    (size : Nat) (out : String)
    (hb : ienv.backend = BackendOutcome.ok size out)
    (he : ienv.escapes = false) :
    ((processImage ienv settings image s).2.1.count
        (Event.telemetryFallbackEv image.id) =
      if ienv.primaryTelemetryFails then 1 else 0)
    ∧ ∀ img ∈ (processImage ienv settings image s).1.images,
        img.id = image.id →
        img.status = ImageStatus.completed ∧
        img.compressedSize = some size ∧ img.outputPath = some out := by
  constructor
  · simp only [processImage, imageEvents, he, hb, Bool.false_eq_true, if_false]
    cases hp : ienv.primaryTelemetryFails <;>
      simp [List.count_cons, List.count_append]
  · intro img hm hid
    simp only [processImage, imageResultState, he, hb, Bool.false_eq_true,
      if_false] at hm
    simp only [List.map_map, List.mem_map, Function.comp] at hm
    obtain ⟨o, ho, rfl⟩ := hm
    by_cases h1 : o.id = image.id
    · simp [h1, ImageEntity.toProcessing, ImageEntity.toCompleted]
    · simp [h1] at hid

/-- An environment where the backend succeeds but both telemetry calls
reject. -/
def envTelemetryFails : ImageEnv :=
  { backend := BackendOutcome.ok 50 "out"
    primaryTelemetryFails := true
    fallbackTelemetryFails := true
    escapes := false }

theorem telemetry_fallback_once_status_completed_witness :
    envTelemetryFails.backend = BackendOutcome.ok 50 "out" ∧
    envTelemetryFails.escapes = false ∧
    (processImage envTelemetryFails initialStoreState.compressionSettings
        (sampleImage "a" "p" ImageStatus.pending) c1State).2.1.count
      (Event.telemetryFallbackEv "a") = 1 := by
  have h := telemetry_fallback_once_status_completed envTelemetryFails
    initialStoreState.compressionSettings
    (sampleImage "a" "p" ImageStatus.pending) c1State 50 "out" rfl rfl
  exact ⟨rfl, rfl, h.1.trans rfl⟩

/-- C7: the event handler applies `stepImage` to every record; for the
record matching the event's id that is `processing`, the stored progress is
the event's fractional progress rescaled to a rounded integer percent
(whatever value the Progress Estimator had written there before); and on
stage Error the matching record is moved to `error` unconditionally,
whatever its prior status. -/
theorem bridge_rescales_progress_and_errors (ev : CompressionProgressEvent)
    (s : StoreState) (h0 : 0 ≤ ev.progress) (h1 : ev.progress ≤ 1) :
    ((handleProgressEvent ev s).images = s.images.map (stepImage ev))
    ∧ (∀ img : ImageEntity, img.id = ev.image_id →
        img.status = ImageStatus.processing →
        (stepImage ev img).progress = jsRound (ev.progress * 100))
    ∧ (ev.stage = Stage.error → ∀ img : ImageEntity, img.id = ev.image_id →
        (stepImage ev img).status = ImageStatus.error) := by
  have hlow : (0:ℤ) ≤ jsRound (ev.progress * 100) := by
    rw [jsRound, Int.le_floor]
    push_cast
    nlinarith
  have hhigh : jsRound (ev.progress * 100) ≤ 100 := by
    have h2 : (ev.progress * 100 + 1 / 2 : ℚ) < ((101:ℤ):ℚ) := by
      push_cast
      nlinarith
    have h3 := Int.floor_lt.mpr h2
    rw [jsRound]
    omega
  refine ⟨?_, ?_, ?_⟩
  · unfold handleProgressEvent updateImageProgress
    by_cases hs : ev.stage = Stage.error
    · simp only [hs, if_pos rfl, List.map_map]
      apply List.map_congr_left
      intro img _
      by_cases hid : img.id = ev.image_id <;>
        simp [stepImage, hid, hs, Function.comp, updateProgress_id]
    · simp only [hs, if_false]
      apply List.map_congr_left
      intro img _
      by_cases hid : img.id = ev.image_id <;> simp [stepImage, hid, hs]
  · intro img hid hproc
    unfold stepImage
    simp only [hid, if_pos rfl]
    rw [ImageEntity.updateProgress, if_pos hproc]
    have hval : max 0 (min 100 (jsRound (ev.progress * 100))) =
        jsRound (ev.progress * 100) := by omega
    split
    · simp [ImageEntity.toError, hval]
    · simp [hval]
  · intro hs img hid
    unfold stepImage
    simp [hid, hs, ImageEntity.toError]

/-- A progress event at 50% for image "a", carrying stage Error. -/
def sampleErrorEvent : CompressionProgressEvent :=
  { image_id := "a", image_name := "a", stage := Stage.error
    progress := 1 / 2, estimated_time_remaining := none }

theorem bridge_rescales_progress_and_errors_witness :
    (0 ≤ sampleErrorEvent.progress ∧ sampleErrorEvent.progress ≤ 1) ∧
    (stepImage sampleErrorEvent
        (sampleImage "a" "p" ImageStatus.processing)).progress = 50 ∧
    (stepImage sampleErrorEvent
        (sampleImage "a" "p" ImageStatus.processing)).status =
      ImageStatus.error := by
  have h := bridge_rescales_progress_and_errors sampleErrorEvent
    initialStoreState (by norm_num [sampleErrorEvent])
    (by norm_num [sampleErrorEvent])
  refine ⟨⟨by norm_num [sampleErrorEvent], by norm_num [sampleErrorEvent]⟩, ?_, ?_⟩
  · rw [h.2.1 (sampleImage "a" "p" ImageStatus.processing) rfl rfl]
    norm_num [jsRound, sampleErrorEvent, Int.floor_eq_iff]
  · exact h.2.2 rfl (sampleImage "a" "p" ImageStatus.processing) rfl

/-- C8: against the claim, two consecutive invocations of
`initializeProgressListener` leave two live listeners: each invocation's
teardown branch inspects its own freshly-created local `unlisten` (always
undefined), so the listener of the previous invocation is never removed,
and nothing ever unsubscribes it. -/
theorem initializeProgressListener_duplicates :
    initializeProgressListener (initializeProgressListener [] 0) 1 = [0, 1] ∧
    (initializeProgressListener (initializeProgressListener [] 0) 1).length
      = 2 :=
  ⟨rfl, rfl⟩

/-- C9: after `removeImage(id)`, a progress update or a bridge event (of any
stage, Error included) addressed to that id leaves the image collection
exactly as it is: no error, no record with that id re-created, every
remaining image untouched. -/
theorem removed_image_events_ignored (s : StoreState)
    (ev : CompressionProgressEvent) (p : Int) :
    ((updateImageProgress ev.image_id p (removeImage ev.image_id s)).images =
      (removeImage ev.image_id s).images)
    ∧ ((handleProgressEvent ev (removeImage ev.image_id s)).images =
      (removeImage ev.image_id s).images)
    ∧ (∀ img ∈ (handleProgressEvent ev (removeImage ev.image_id s)).images,
        img.id ≠ ev.image_id) := by
  have hne := mem_removeImage_ne s ev.image_id
  have hupd : ∀ q : Int,
      (updateImageProgress ev.image_id q (removeImage ev.image_id s)).images =
        (removeImage ev.image_id s).images := by
    intro q
    unfold updateImageProgress
    exact map_if_id_eq_self (fun img => img.updateProgress q) hne
  have hhandle :
      (handleProgressEvent ev (removeImage ev.image_id s)).images =
        (removeImage ev.image_id s).images := by
    unfold handleProgressEvent
    by_cases hs : ev.stage = Stage.error
    · simp only [hs, if_pos rfl]
      rw [hupd _]
      exact map_if_id_eq_self ImageEntity.toError hne
    · simp only [hs, if_false]
      exact hupd _
  exact ⟨hupd p, hhandle, by rw [hhandle]; exact hne⟩

/-- A store with two images mid-processing. -/
def procState : StoreState :=
  { initialStoreState with
      images := [sampleImage "a" "p" ImageStatus.processing,
                 sampleImage "b" "q" ImageStatus.processing] }

theorem removed_image_events_ignored_witness :
    (handleProgressEvent sampleErrorEvent
        (removeImage sampleErrorEvent.image_id procState)).images =
      (removeImage sampleErrorEvent.image_id procState).images ∧
    (updateImageProgress sampleErrorEvent.image_id 42
        (removeImage sampleErrorEvent.image_id procState)).images =
      (removeImage sampleErrorEvent.image_id procState).images := by
  have h := removed_image_events_ignored procState sampleErrorEvent 42
  exact ⟨h.2.1, h.1⟩

/-- C10: `addImages` only appends records for input paths not already in the
collection (existing records are untouched); when every input path is
already present the collection is returned unchanged; and a failed
`get_file_information` call is non-fatal — the image is still added, as
`pending`, with `originalSize` 0. -/
theorem addImages_dedup_and_metadata_nonfatal (fileInfo : String → Option Nat)
    (genId : Nat → String) (detectFormat : String → ImageFormatDisplay)
    (filePaths : List String) (s : StoreState) :
    (∃ tl, (addImages fileInfo genId detectFormat filePaths s).images =
        s.images ++ tl ∧
      ∀ img ∈ tl, img.path ∈ filePaths ∧
        img.path ∉ s.images.map (fun i => i.path))
    ∧ ((∀ p ∈ filePaths, p ∈ s.images.map (fun i => i.path)) →
        addImages fileInfo genId detectFormat filePaths s = s)
    ∧ (∀ p ∈ filePaths, p ∉ s.images.map (fun i => i.path) →
        fileInfo p = none →
        ∃ img ∈ (addImages fileInfo genId detectFormat filePaths s).images,
          img.path = p ∧ img.originalSize = 0 ∧
          img.status = ImageStatus.pending) := by
  refine ⟨?_, ?_, ?_⟩
  · unfold addImages
    by_cases he : (filePaths.filter
        (fun p => ¬(s.images.map (fun img => img.path)).contains p)).isEmpty
          = true
    · rw [if_pos he]
      exact ⟨[], by simp, by simp⟩
    · rw [if_neg he]
      refine ⟨_, rfl, ?_⟩
      intro img hm
      simp only [List.mem_map] at hm
      obtain ⟨ip, hip, rfl⟩ := hm
      have h2 : ip.2 ∈ filePaths.filter
          (fun p => ¬(s.images.map (fun img => img.path)).contains p) := by
        have := List.mem_map_of_mem Prod.snd hip
        rwa [List.enum_map_snd] at this
      have h3 := List.mem_filter.mp h2
      refine ⟨h3.1, ?_⟩
      have h4 := h3.2
      simp only [decide_not, Bool.not_eq_true', decide_eq_false_iff_not] at h4
      simpa using h4
  · intro hall
    unfold addImages
    have he : (filePaths.filter
        (fun p => ¬(s.images.map (fun img => img.path)).contains p)) = [] := by
      rw [List.filter_eq_nil_iff]
      intro p hp
      simp [hall p hp]
    rw [if_pos (by rw [he]; rfl : (filePaths.filter
        (fun p => ¬(s.images.map (fun img => img.path)).contains p)).isEmpty
          = true)]
  · intro p hp hnotin hinfo
    unfold addImages
    have hmemf : p ∈ filePaths.filter
        (fun q => ¬(s.images.map (fun img => img.path)).contains q) := by
      rw [List.mem_filter]
      exact ⟨hp, by simpa using hnotin⟩
    have he : ¬(filePaths.filter
        (fun q => ¬(s.images.map (fun img => img.path)).contains q)).isEmpty := by
      intro hcon
      rw [List.isEmpty_iff] at hcon
      rw [hcon] at hmemf
      exact absurd hmemf (List.not_mem_nil p)
    simp only [he, if_false]
    have hsnd : p ∈ (filePaths.filter
        (fun q => ¬(s.images.map (fun img => img.path)).contains q)).enum.map
        Prod.snd := by
      rwa [List.enum_map_snd]
    obtain ⟨ip, hip, hip2⟩ := List.mem_map.mp hsnd
    refine ⟨{ id := genId ip.1, name := jsFileName ip.2, path := ip.2
              originalSize := (fileInfo ip.2).getD 0
              format := detectFormat (jsFileName ip.2)
              status := ImageStatus.pending, progress := 0
              compressedSize := none, outputPath := none }, ?_, ?_, ?_, rfl⟩
    · exact List.mem_append_right _ (List.mem_map_of_mem _ hip)
    · exact hip2
    · rw [hip2, hinfo]
      rfl

theorem addImages_dedup_and_metadata_nonfatal_witness :
    ("a" ∈ ["a"] ∧
      "a" ∉ initialStoreState.images.map (fun i => i.path) ∧
      (fun _ : String => (none : Option Nat)) "a" = none) ∧
    ∃ img ∈ (addImages (fun _ => none) (fun n => toString n)
        (fun _ => ImageFormatDisplay.JPEG) ["a"] initialStoreState).images,
      img.path = "a" ∧ img.originalSize = 0 ∧
      img.status = ImageStatus.pending := by
  have h := addImages_dedup_and_metadata_nonfatal (fun _ => none)
    (fun n => toString n) (fun _ => ImageFormatDisplay.JPEG) ["a"]
    initialStoreState
  exact ⟨⟨by simp, by simp [initialStoreState], rfl⟩,
    h.2.2 "a" (by simp) (by simp [initialStoreState]) rfl⟩

end Plume
